import Mathlib

/-!
Verification of the Presnalized-Recommendation-system repository.

Part 1 embeds the code that actually exists in the repository: the front-end
component in `src/unnamed/part_000`, whose `generateRecommendations` sets a
hard-coded list of eight movies whenever a user id is selected.

Part 2 models the collaborative-filtering engine that the specification
defines (RatingStore, SimilarityEngine, Predictor, RecommendationRanker).
None of this engine exists in the repository's source — the UI only displays
hard-coded sample data — so every definition in Part 2 is modelled from the
spec's own words, as noted in its doc comment.  Ratings are exact rationals
(the spec's floats), user and item ids are naturals (the spec's positive
integers, so the spec's "id ≤ 0" is "id = 0").
-/

/-! ### Part 1: the front-end component from src/unnamed/part_000 -/

/-- A movie record exactly as it appears in the hard-coded
`mockRecommendations` array of `generateRecommendations`. -/
structure Movie where
  id : ℕ
  title : String
  genre : String
  predicted_rating : ℚ
  similarity : ℚ
deriving DecidableEq

/-- The eight hard-coded movies from the body of `generateRecommendations`
in `src/unnamed/part_000` (lines 25-34). -/
def mockRecommendations : List Movie :=
  [ ⟨1, "The Shawshank Redemption", "Drama", 4.8, 0.92⟩,
    ⟨2, "Pulp Fiction", "Crime", 4.6, 0.89⟩,
    ⟨3, "The Dark Knight", "Action", 4.5, 0.87⟩,
    ⟨4, "Forrest Gump", "Drama", 4.4, 0.85⟩,
    ⟨5, "Inception", "Sci-Fi", 4.3, 0.83⟩,
    ⟨6, "The Matrix", "Sci-Fi", 4.2, 0.81⟩,
    ⟨7, "Goodfellas", "Crime", 4.1, 0.79⟩,
    ⟨8, "The Godfather", "Crime", 4.0, 0.77⟩ ]

/-- Embedding of `generateRecommendations` from `src/unnamed/part_000`:
if no user is selected (`selectedUser` is the empty string) it returns early
and produces no recommendation list (`none`); otherwise, after the simulated
delay, it sets the recommendations state to the fixed `mockRecommendations`
array.  The selected model (`selectedModel`) is received but never read. -/
def generateRecommendations (selectedUser selectedModel : String) :
    Option (List Movie) :=
  if selectedUser = "" then none else some mockRecommendations

/-! ### Part 2: the engine modelled from the specification -/

/-- Modelled from the spec: the engine's error kinds (`InvalidValue`,
`NoData`, `NoPrediction` of spec section 7); the engine itself is absent
from the repository's source. -/
inductive StoreError where
  | InvalidValue
  | NoData
  | NoPrediction
deriving DecidableEq

/-- Modelled from the spec: the similarity mode, `mode ∈ {user, item}`. -/
inductive Mode where
  | user
  | item
deriving DecidableEq

/-- Modelled from the spec: a Rating record (user_id, item_id, value);
the missing engine's basic datum.  The optional timestamp plays no role in
any computation and is omitted. -/
structure Rating where
  user : ℕ
  item : ℕ
  value : ℚ
deriving DecidableEq

/-- Modelled from the spec: the RatingStore, single source of truth for the
sparse user×item rating matrix, kept as a list of entries sorted by
(user, item) key with at most one entry per key. -/
structure RatingStore where
  entries : List Rating
deriving DecidableEq

/-- Modelled from the spec: an empty RatingStore. -/
def RatingStore.empty : RatingStore := ⟨[]⟩

/-- Strict order on the (user, item) keys of two entries. -/
def keyLT (a b : Rating) : Prop :=
  a.user < b.user ∨ (a.user = b.user ∧ a.item < b.item)

instance (a b : Rating) : Decidable (keyLT a b) := by
  unfold keyLT; exact inferInstance

/-- Insert an entry into a key-sorted entry list, replacing any existing
entry with the same (user, item) key. -/
def insertEntry (r : Rating) : List Rating → List Rating
  | [] => [r]
  | e :: es =>
    if keyLT e r then e :: insertEntry r es
    else if e.user = r.user ∧ e.item = r.item then r :: es
    else r :: e :: es

/-- Modelled from the spec: `upsert(rating)` inserts or overwrites a rating;
fails with `InvalidValue` if the value is outside [1,5] or an id is ≤ 0
(ids are naturals here, so "≤ 0" is "= 0").  Cache invalidation is a no-op
in this model because all derived values are recomputed from the entries. -/
def RatingStore.upsert (s : RatingStore) (r : Rating) :
    Except StoreError RatingStore :=
  if r.value < 1 ∨ 5 < r.value ∨ r.user = 0 ∨ r.item = 0 then
    .error .InvalidValue
  else .ok ⟨insertEntry r s.entries⟩

/-- Modelled from the spec: `get(user_id, item_id)` returns the optional
rating value stored for that pair. -/
def RatingStore.get (s : RatingStore) (u i : ℕ) : Option ℚ :=
  (s.entries.find? fun r => r.user == u && r.item == i).map Rating.value

/-- Modelled from the spec: bulk ingestion `loadRatings`; an `InvalidValue`
record is rejected and ingestion continues with the rest. -/
def RatingStore.loadRatings (s : RatingStore) (rs : List Rating) : RatingStore :=
  rs.foldl (fun acc r => match acc.upsert r with
    | .ok s2 => s2
    | .error _ => acc) s

/-- Modelled from the spec: `ratingsByUser(user_id)`, the finite sequence of
(item_id, value) pairs rated by that user. -/
def RatingStore.ratingsByUser (s : RatingStore) (u : ℕ) : List (ℕ × ℚ) :=
  s.entries.filterMap fun r =>
    if r.user = u then some (r.item, r.value) else none

/-- Modelled from the spec: `ratingsByItem(item_id)`, symmetric to
`ratingsByUser`. -/
def RatingStore.ratingsByItem (s : RatingStore) (i : ℕ) : List (ℕ × ℚ) :=
  s.entries.filterMap fun r =>
    if r.item = i then some (r.user, r.value) else none

/-- Modelled from the spec: the ratings of an entity (a user in user mode,
an item in item mode) as (dimension, value) pairs. -/
def RatingStore.ratingsOf (s : RatingStore) (m : Mode) (ent : ℕ) :
    List (ℕ × ℚ) :=
  match m with
  | .user => s.ratingsByUser ent
  | .item => s.ratingsByItem ent

/-- Modelled from the spec: `meanRating` of an entity, failing with `NoData`
when the entity has zero ratings. -/
def RatingStore.meanRating (s : RatingStore) (m : Mode) (ent : ℕ) :
    Except StoreError ℚ :=
  let l := s.ratingsOf m ent
  if l.isEmpty then .error .NoData
  else .ok ((l.map Prod.snd).sum / l.length)

/-- Total arithmetic mean of an entity's ratings; 0 for an entity with no
ratings (the degenerate case is cut off by the zero-norm guard wherever this
feeds the similarity formula). -/
def RatingStore.mean0 (s : RatingStore) (m : Mode) (ent : ℕ) : ℚ :=
  let l := s.ratingsOf m ent
  (l.map Prod.snd).sum / l.length

/-- The rating vector of an entity, indexed by dimension: in user mode
entity u's rating of item d, in item mode entity i's rating by user d. -/
def RatingStore.vec (s : RatingStore) (m : Mode) (ent d : ℕ) : Option ℚ :=
  match m with
  | .user => s.get ent d
  | .item => s.get d ent

/-- All user ids occurring in the store, without duplicates. -/
def RatingStore.userIds (s : RatingStore) : List ℕ :=
  (s.entries.map Rating.user).dedup

/-- All item ids occurring in the store, without duplicates. -/
def RatingStore.itemIds (s : RatingStore) : List ℕ :=
  (s.entries.map Rating.item).dedup

/-- The entity universe of a mode: users in user mode, items in item mode. -/
def RatingStore.entities (s : RatingStore) (m : Mode) : List ℕ :=
  match m with
  | .user => s.userIds
  | .item => s.itemIds

/-- The dimension universe of a mode: items in user mode, users in item
mode. -/
def RatingStore.dims (s : RatingStore) (m : Mode) : List ℕ :=
  match m with
  | .user => s.itemIds
  | .item => s.userIds

/-- Mean-centered deviation of an entity's rating at a dimension. -/
def RatingStore.dev (s : RatingStore) (m : Mode) (ent d : ℕ) : ℚ :=
  (s.vec m ent d).getD 0 - s.mean0 m ent

/-- Modelled from the spec: the co-rated set of two entities — the
dimensions both have observed ratings for. -/
def coRated (s : RatingStore) (m : Mode) (a b : ℕ) : List ℕ :=
  (s.dims m).filter fun d => (s.vec m a d).isSome && (s.vec m b d).isSome

/-- Numerator of the adjusted-cosine formula: the dot product of the two
mean-centered rating vectors over the co-rated set. -/
def coDot (s : RatingStore) (m : Mode) (a b : ℕ) : ℚ :=
  ((coRated s m a b).map fun d => s.dev m a d * s.dev m b d).sum

/-- Squared norm of the first entity's mean-centered vector over the
co-rated set. -/
def coNormSqA (s : RatingStore) (m : Mode) (a b : ℕ) : ℚ :=
  ((coRated s m a b).map fun d => s.dev m a d ^ 2).sum

/-- Squared norm of the second entity's mean-centered vector over the
co-rated set. -/
def coNormSqB (s : RatingStore) (m : Mode) (a b : ℕ) : ℚ :=
  ((coRated s m a b).map fun d => s.dev m b d ^ 2).sum

/-- Modelled from the spec: `similarity(a, b, mode)`, adjusted cosine on the
co-rated set, defined as 0 (not an error) when the co-rated set is empty or
either norm is zero.  The spec's value is num / √(dA·dB), which is
irrational in general; this model carries instead its sign-preserving
square sign(num)·num² / (dA·dB), an exact rational and a strictly monotone
image of the spec's value: it is zero, positive, and orders entity pairs
exactly when the spec's value is and does. -/
def similarity (s : RatingStore) (a b : ℕ) (m : Mode) : ℚ :=
  if coNormSqA s m a b = 0 ∨ coNormSqB s m a b = 0 then 0
  else if coDot s m a b < 0 then
    -(coDot s m a b ^ 2) / (coNormSqA s m a b * coNormSqB s m a b)
  else coDot s m a b ^ 2 / (coNormSqA s m a b * coNormSqB s m a b)

/-- Descending-by-key order with tie-break by a base relation: `a` comes
before `b` when its key is larger, or the keys are equal and the base
relation holds. -/
def byKey {α β : Type} [LinearOrder β] (f : α → β) (g : α → α → Prop)
    (a b : α) : Prop :=
  f b < f a ∨ (f a = f b ∧ g a b)

instance {α β : Type} [LinearOrder β] (f : α → β) (g : α → α → Prop)
    [DecidableRel g] : DecidableRel (byKey f g) := fun a b => by
  unfold byKey; exact inferInstance

/-- Neighbor ordering used by the SimilarityEngine: similarity to the query
entity descending, ties broken by lower entity id first. -/
def nbrLE (s : RatingStore) (m : Mode) (ent : ℕ) : ℕ → ℕ → Prop :=
  byKey (fun e => similarity s ent e m) (fun a b => a ≤ b)

instance (s : RatingStore) (m : Mode) (ent : ℕ) :
    DecidableRel (nbrLE s m ent) := fun a b => by
  unfold nbrLE; exact inferInstance

/-- The positive-similarity neighbor candidates of an entity: every other
entity of the mode whose similarity to it is strictly positive. -/
def nbrCandidates (s : RatingStore) (ent : ℕ) (m : Mode) : List ℕ :=
  (s.entities m).filter fun e => e != ent && decide (0 < similarity s ent e m)

/-- Modelled from the spec: `neighbors(entity, mode, k)` — the top-k
entities by similarity descending, ties broken by lower entity id first,
excluding the entity itself and excluding similarities ≤ 0. -/
def neighbors (s : RatingStore) (ent : ℕ) (m : Mode) (k : ℕ) : List ℕ :=
  (List.insertionSort (nbrLE s m ent) (nbrCandidates s ent m)).take k

/-- The neighbor candidates available to a prediction: entities of the mode,
other than the query entity, with strictly positive similarity to it, that
have a rating at the target dimension (users who rated the item in user
mode, items rated by the user in item mode). -/
def predCandidates (s : RatingStore) (m : Mode) (ent dim : ℕ) : List ℕ :=
  (s.entities m).filter fun e =>
    e != ent && (s.vec m e dim).isSome && decide (0 < similarity s ent e m)

/-- The up-to-k nearest available neighbors used by a prediction, ordered
by similarity descending with ties broken by lower entity id first. -/
def predNeighbors (s : RatingStore) (m : Mode) (ent dim k : ℕ) : List ℕ :=
  (List.insertionSort (nbrLE s m ent) (predCandidates s m ent dim)).take k

/-- Modelled from the spec: the mode-generic core of `predict` — mean of the
query entity plus the similarity-weighted average of the neighbors'
mean-centered ratings at the target dimension, clamped to [1,5], together
with the confidence Σ|sim| / k; fails with `NoPrediction` when no neighbor
is available. -/
def predictE (s : RatingStore) (m : Mode) (ent dim k : ℕ) :
    Except StoreError (ℚ × ℚ) :=
  if predCandidates s m ent dim = [] then .error .NoPrediction
  else
    let ns := predNeighbors s m ent dim k
    let wsum := (ns.map fun n =>
      similarity s ent n m * ((s.vec m n dim).getD 0 - s.mean0 m n)).sum
    let asum := (ns.map fun n => |similarity s ent n m|).sum
    .ok (max 1 (min 5 (s.mean0 m ent + wsum / asum)), asum / (k : ℚ))

/-- Modelled from the spec: `predict(user_id, item_id, mode, k)`; in user
mode the entities are users and the target dimension is the item, in item
mode the entities are items and the target dimension is the user. -/
def predict (s : RatingStore) (u i : ℕ) (m : Mode) (k : ℕ) :
    Except StoreError (ℚ × ℚ) :=
  match m with
  | .user => predictE s .user u i k
  | .item => predictE s .item i u k

/-- Modelled from the spec: a Recommendation produced for a query — the
item, its predicted rating and the prediction's confidence. -/
structure Recommendation where
  item : ℕ
  predicted_rating : ℚ
  confidence : ℚ
deriving DecidableEq

/-- Ranking order of recommendations: predicted rating descending, ties by
confidence descending, then item id ascending. -/
def recLE : Recommendation → Recommendation → Prop :=
  byKey Recommendation.predicted_rating
    (byKey Recommendation.confidence (fun a b => a.item ≤ b.item))

instance : DecidableRel recLE := fun a b => by
  unfold recLE; exact inferInstance

/-- Modelled from the spec: `recommend(user_id, mode, k, topN)` — for every
item not rated by the user, call the Predictor, silently discard
`NoPrediction` failures, sort by predicted rating descending with ties by
confidence descending then item id ascending, and return the first topN. -/
def recommend (s : RatingStore) (u : ℕ) (m : Mode) (k topN : ℕ) :
    List Recommendation :=
  let cands := s.itemIds.filter fun i => (s.get u i).isNone
  let preds := cands.filterMap fun i =>
    match predict s u i m k with
    | .ok pc => some (⟨i, pc.1, pc.2⟩ : Recommendation)
    | .error _ => none
  (List.insertionSort recLE preds).take topN

/-! ### Order lemmas for the ranking relations -/

theorem byKey_total {α β : Type} [LinearOrder β] (f : α → β) (g : α → α → Prop)
    (hg : ∀ a b, g a b ∨ g b a) (a b : α) : byKey f g a b ∨ byKey f g b a := by
  rcases lt_trichotomy (f a) (f b) with h | h | h
  · exact Or.inr (Or.inl h)
  · rcases hg a b with hab | hba
    · exact Or.inl (Or.inr ⟨h, hab⟩)
    · exact Or.inr (Or.inr ⟨h.symm, hba⟩)
  · exact Or.inl (Or.inl h)

theorem byKey_trans {α β : Type} [LinearOrder β] (f : α → β) (g : α → α → Prop)
    (hg : ∀ a b c, g a b → g b c → g a c) :
    ∀ a b c, byKey f g a b → byKey f g b c → byKey f g a c := by
  intro a b c hab hbc
  rcases hab with h1 | h1 <;> rcases hbc with h2 | h2
  · exact Or.inl (h2.trans h1)
  · exact Or.inl (by rw [← h2.1]; exact h1)
  · exact Or.inl (by rw [h1.1]; exact h2)
  · exact Or.inr ⟨h1.1.trans h2.1, hg a b c h1.2 h2.2⟩

instance (s : RatingStore) (m : Mode) (ent : ℕ) : IsTotal ℕ (nbrLE s m ent) := by
  refine ⟨fun a b => ?_⟩
  unfold nbrLE
  apply byKey_total
  exact fun x y => Nat.le_total x y

instance (s : RatingStore) (m : Mode) (ent : ℕ) : IsTrans ℕ (nbrLE s m ent) := by
  refine ⟨fun a b c hab hbc => ?_⟩
  unfold nbrLE at hab hbc ⊢
  exact byKey_trans (fun e => similarity s ent e m) (fun x y => x ≤ y)
    (fun _ _ _ hxy hyz => Nat.le_trans hxy hyz) a b c hab hbc

instance : IsTotal Recommendation recLE := by
  refine ⟨fun a b => ?_⟩
  unfold recLE
  apply byKey_total
  intro x y
  apply byKey_total
  exact fun p q => Nat.le_total p.item q.item

instance : IsTrans Recommendation recLE := by
  refine ⟨fun a b c hab hbc => ?_⟩
  unfold recLE at hab hbc ⊢
  exact byKey_trans Recommendation.predicted_rating
    (byKey Recommendation.confidence fun a b => a.item ≤ b.item)
    (fun x y z hxy hyz =>
      byKey_trans Recommendation.confidence (fun a b => a.item ≤ b.item)
        (fun _ _ _ hpq hqr => Nat.le_trans hpq hqr) x y z hxy hyz)
    a b c hab hbc

/-! ### Symmetry of the similarity components -/

theorem coRated_comm (s : RatingStore) (m : Mode) (a b : ℕ) :
    coRated s m a b = coRated s m b a := by
  unfold coRated
  exact List.filter_congr fun d _ => by rw [Bool.and_comm]

theorem coDot_comm (s : RatingStore) (m : Mode) (a b : ℕ) :
    coDot s m a b = coDot s m b a := by
  unfold coDot
  rw [coRated_comm]
  exact congrArg List.sum (List.map_congr_left fun d _ => mul_comm _ _)

theorem coNormSqA_swap (s : RatingStore) (m : Mode) (a b : ℕ) :
    coNormSqA s m a b = coNormSqB s m b a := by
  unfold coNormSqA coNormSqB
  rw [coRated_comm]

theorem coNormSqB_swap (s : RatingStore) (m : Mode) (a b : ℕ) :
    coNormSqB s m a b = coNormSqA s m b a := by
  unfold coNormSqA coNormSqB
  rw [coRated_comm]

/-- C3: for every pair of entities a and b and every mode (user or item),
similarity(a, b, mode) equals similarity(b, a, mode). -/
theorem similarity_symm (s : RatingStore) (a b : ℕ) (m : Mode) :
    similarity s a b m = similarity s b a m := by
  unfold similarity
  rw [coDot_comm s m a b, coNormSqA_swap s m a b, coNormSqB_swap s m a b]
  by_cases h : coNormSqA s m b a = 0 ∨ coNormSqB s m b a = 0
  · rw [if_pos h.symm, if_pos h]
  · rw [if_neg (fun hc => h hc.symm), if_neg h,
      mul_comm (coNormSqB s m b a) (coNormSqA s m b a)]

/-- C4: whenever the co-rated set of two entities is empty, or either
mean-centered rating vector has zero (squared) norm over it, `similarity`
returns exactly 0; it is a total function, so no error can be raised. -/
theorem similarity_eq_zero (s : RatingStore) (a b : ℕ) (m : Mode)
    (h : coRated s m a b = [] ∨ coNormSqA s m a b = 0 ∨ coNormSqB s m a b = 0) :
    similarity s a b m = 0 := by
  have hz : coNormSqA s m a b = 0 ∨ coNormSqB s m a b = 0 := by
    rcases h with h | h
    · exact Or.inl (by simp [coNormSqA, h])
    · exact h
  unfold similarity
  rw [if_pos hz]

/-- C2: on every input on which `predict` succeeds, the predicted rating
lies in the interval [1,5]: the Predictor clamps its result to [1,5]. -/
theorem predict_rating_in_Icc (s : RatingStore) (u i : ℕ) (m : Mode) (k : ℕ)
    (pr cf : ℚ) (h : predict s u i m k = .ok (pr, cf)) : 1 ≤ pr ∧ pr ≤ 5 := by
  have core : ∀ mo ent dim, predictE s mo ent dim k = .ok (pr, cf) →
      1 ≤ pr ∧ pr ≤ 5 := by
    intro mo ent dim hE
    unfold predictE at hE
    by_cases hc : predCandidates s mo ent dim = []
    · rw [if_pos hc] at hE
      exact absurd hE (by simp)
    · rw [if_neg hc] at hE
      simp only [Except.ok.injEq, Prod.mk.injEq] at hE
      refine hE.1 ▸ ⟨le_max_left 1 _, max_le (by norm_num) (min_le_left 5 _)⟩
  cases m with
  | user => exact core .user u i h
  | item => exact core .item i u h

/-- C1: for every pair of non-empty user-id inputs and every pair of model
selections, `generateRecommendations` produces the identical output — the
fixed `mockRecommendations` array of 8 hard-coded movies — so the output
depends neither on the selected user nor on the selected model. -/
theorem generateRecommendations_const (u1 u2 m1 m2 : String)
    (h1 : u1 ≠ "") (h2 : u2 ≠ "") :
    generateRecommendations u1 m1 = generateRecommendations u2 m2 ∧
    generateRecommendations u1 m1 = some mockRecommendations ∧
    mockRecommendations.length = 8 := by
  unfold generateRecommendations
  rw [if_neg h1, if_neg h2]
  exact ⟨rfl, rfl, rfl⟩

/-- C6: `neighbors(entity, mode, k)` never contains the queried entity,
contains only entities of strictly positive similarity, is ordered by
similarity descending with ties broken by lower entity id first, and has
length min k (number of positive-similarity candidates) — at most k, and
shorter exactly when fewer positive-similarity neighbors exist. -/
theorem neighbors_spec (s : RatingStore) (ent : ℕ) (m : Mode) (k : ℕ) :
    ent ∉ neighbors s ent m k ∧
    (∀ e ∈ neighbors s ent m k, 0 < similarity s ent e m) ∧
    (neighbors s ent m k).Sorted (nbrLE s m ent) ∧
    (neighbors s ent m k).length = min k (nbrCandidates s ent m).length := by
  have hcand : ∀ e ∈ neighbors s ent m k,
      e ≠ ent ∧ 0 < similarity s ent e m := by
    intro e he
    have h1 : e ∈ List.insertionSort (nbrLE s m ent) (nbrCandidates s ent m) :=
      List.mem_of_mem_take he
    have h2 : e ∈ nbrCandidates s ent m :=
      (List.mem_insertionSort (nbrLE s m ent)).mp h1
    have h3 := List.mem_filter.mp h2
    simpa using h3.2
  refine ⟨fun hmem => (hcand ent hmem).1 rfl, fun e he => (hcand e he).2, ?_, ?_⟩
  · exact List.Pairwise.sublist (List.take_sublist k _)
      (List.sorted_insertionSort (nbrLE s m ent) (nbrCandidates s ent m))
  · unfold neighbors
    rw [List.length_take, List.length_insertionSort]

/-- C5: every recommendation returned by `recommend(user, mode, k, topN)`
is for an item the user has not rated and carries a successful prediction
(so `NoPrediction` failures are silently dropped); the output is sorted by
predicted rating descending with ties by confidence descending then item id
ascending; its length is at most topN; when no item is predictable the
output is empty, and in particular an empty RatingStore yields an empty
sequence rather than an error. -/
theorem recommend_spec (s : RatingStore) (u : ℕ) (m : Mode) (k topN : ℕ) :
    (∀ r ∈ recommend s u m k topN,
      s.get u r.item = none ∧
      predict s u r.item m k = .ok (r.predicted_rating, r.confidence)) ∧
    (recommend s u m k topN).Sorted recLE ∧
    (recommend s u m k topN).length ≤ topN ∧
    ((∀ i2 pc, predict s u i2 m k ≠ .ok pc) → recommend s u m k topN = []) ∧
    recommend RatingStore.empty u m k topN = [] := by
  refine ⟨?_, ?_, ?_, ?_, ?_⟩
  · intro r hr
    have h1 : r ∈ List.insertionSort recLE
        ((s.itemIds.filter fun i => (s.get u i).isNone).filterMap fun i =>
          match predict s u i m k with
          | .ok pc => some (⟨i, pc.1, pc.2⟩ : Recommendation)
          | .error _ => none) :=
      List.mem_of_mem_take hr
    have h2 := (List.mem_insertionSort recLE).mp h1
    obtain ⟨i, hi, hmatch⟩ := List.mem_filterMap.mp h2
    have hget : (s.get u i).isNone = true := by
      simpa using (List.mem_filter.mp hi).2
    cases hp : predict s u i m k with
    | ok pc =>
      rw [hp] at hmatch
      obtain rfl : (⟨i, pc.1, pc.2⟩ : Recommendation) = r := Option.some.inj hmatch
      exact ⟨Option.isNone_iff_eq_none.mp hget, by rw [hp]⟩
    | error err =>
      rw [hp] at hmatch
      simp at hmatch
  · exact List.Pairwise.sublist (List.take_sublist topN _)
      (List.sorted_insertionSort recLE _)
  · unfold recommend
    rw [List.length_take]
    exact min_le_left _ _
  · intro hfail
    unfold recommend
    have hnil : ((s.itemIds.filter fun i => (s.get u i).isNone).filterMap fun i =>
        match predict s u i m k with
        | .ok pc => some (⟨i, pc.1, pc.2⟩ : Recommendation)
        | .error _ => none) = [] := by
      apply List.filterMap_eq_nil_iff.mpr
      intro i _
      cases hp : predict s u i m k with
      | ok pc => exact absurd hp (hfail i pc)
      | error err => rfl
    simp only [hnil]
    simp
  · simp [recommend, RatingStore.empty, RatingStore.itemIds]

/-! ### The RatingStore invariants -/

/-- The RatingMatrix invariant of the spec's data model: every stored
entry's value lies in [1,5]. -/
def ValidValues (s : RatingStore) : Prop :=
  ∀ e ∈ s.entries, 1 ≤ e.value ∧ e.value ≤ 5

theorem mem_insertEntry {r x : Rating} :
    ∀ {l : List Rating}, x ∈ insertEntry r l → x = r ∨ x ∈ l := by
  intro l
  induction l with
  | nil =>
    intro h
    rw [insertEntry] at h
    exact Or.inl (List.mem_singleton.mp h)
  | cons e es ih =>
    intro h
    rw [insertEntry] at h
    split_ifs at h with h1 h2
    · rcases List.mem_cons.mp h with h3 | h3
      · exact Or.inr (by rw [h3]; exact List.mem_cons_self e es)
      · rcases ih h3 with h4 | h4
        · exact Or.inl h4
        · exact Or.inr (List.mem_cons_of_mem e h4)
    · rcases List.mem_cons.mp h with h3 | h3
      · exact Or.inl h3
      · exact Or.inr (List.mem_cons_of_mem e h3)
    · rcases List.mem_cons.mp h with h3 | h3
      · exact Or.inl h3
      · exact Or.inr h3

theorem upsert_preserves_ValidValues (s : RatingStore) (r : Rating)
    (s2 : RatingStore) (hs : ValidValues s) (h : s.upsert r = .ok s2) :
    ValidValues s2 := by
  unfold RatingStore.upsert at h
  by_cases hc : r.value < 1 ∨ 5 < r.value ∨ r.user = 0 ∨ r.item = 0
  · rw [if_pos hc] at h
    exact absurd h (by simp)
  · rw [if_neg hc] at h
    push_neg at hc
    obtain ⟨h1, h2, _, _⟩ := hc
    obtain rfl : (⟨insertEntry r s.entries⟩ : RatingStore) = s2 := Except.ok.inj h
    intro e he
    rcases mem_insertEntry he with h3 | h3
    · exact by rw [h3]; exact ⟨h1, h2⟩
    · exact hs e h3

theorem loadRatings_preserves_ValidValues (rs : List Rating) :
    ∀ s : RatingStore, ValidValues s → ValidValues (s.loadRatings rs) := by
  induction rs with
  | nil => exact fun s hs => hs
  | cons r rs ih =>
    intro s hs
    show ValidValues (RatingStore.loadRatings (match s.upsert r with
      | .ok s2 => s2
      | .error _ => s) rs)
    apply ih
    cases h : s.upsert r with
    | ok s2 => exact upsert_preserves_ValidValues s r s2 hs h
    | error e => exact hs

/-- C7: `upsert(rating)` fails with `InvalidValue` exactly when the value
is outside [1,5] or an id is ≤ 0 (here: = 0 on naturals); consequently
every entry stored in the RatingMatrix has a value in [1,5] — an invariant
preserved by `upsert` and by bulk `loadRatings` (the reading operations do
not change the store). -/
theorem upsert_invalid_iff (s : RatingStore) (r : Rating) :
    (s.upsert r = .error .InvalidValue ↔
      (r.value < 1 ∨ 5 < r.value ∨ r.user = 0 ∨ r.item = 0)) ∧
    (∀ s2, ValidValues s → s.upsert r = .ok s2 → ValidValues s2) ∧
    (∀ rs, ValidValues s → ValidValues (s.loadRatings rs)) := by
  refine ⟨?_, fun s2 hs h => upsert_preserves_ValidValues s r s2 hs h,
    fun rs hs => loadRatings_preserves_ValidValues rs s hs⟩
  unfold RatingStore.upsert
  split_ifs with hc
  · simp [hc]
  · simp [hc]

/-! ### Wrappers describing the Predictor's neighbor pool -/

/-- The neighbor pool available to `predict(user, item, mode, k)`: in user
mode the users other than the query user who rated the item with strictly
positive similarity to the user; in item mode the items other than the
query item rated by the user with strictly positive similarity to it. -/
def availableNeighbors (s : RatingStore) (u i : ℕ) (m : Mode) : List ℕ :=
  match m with
  | .user => predCandidates s .user u i
  | .item => predCandidates s .item i u

/-- The up-to-k nearest neighbors actually used by `predict`. -/
def usedNeighbors (s : RatingStore) (u i : ℕ) (m : Mode) (k : ℕ) : List ℕ :=
  match m with
  | .user => predNeighbors s .user u i k
  | .item => predNeighbors s .item i u k

/-- The similarity weight `predict(user, item, mode, k)` attaches to a
neighbor n. -/
def neighborSim (s : RatingStore) (u i : ℕ) (m : Mode) (n : ℕ) : ℚ :=
  match m with
  | .user => similarity s u n .user
  | .item => similarity s i n .item

/-- C8: `predict` fails with `NoPrediction` exactly when no neighbor is
available (no user who rated the item in user mode, no item rated by the
user in item mode, always restricted to positive similarity), and on
success the returned confidence equals the sum of the absolute neighbor
similarities divided by k (0 when the neighbor sum is empty, since the
empty sum is 0). -/
theorem predict_error_iff (s : RatingStore) (u i : ℕ) (m : Mode) (k : ℕ) :
    (predict s u i m k = .error .NoPrediction ↔
      availableNeighbors s u i m = []) ∧
    (∀ pr cf, predict s u i m k = .ok (pr, cf) →
      cf = ((usedNeighbors s u i m k).map
        fun n => |neighborSim s u i m n|).sum / (k : ℚ)) := by
  have core : ∀ mo ent dim,
      (predictE s mo ent dim k = .error .NoPrediction ↔
        predCandidates s mo ent dim = []) ∧
      (∀ pr cf, predictE s mo ent dim k = .ok (pr, cf) →
        cf = ((predNeighbors s mo ent dim k).map
          fun n => |similarity s ent n mo|).sum / (k : ℚ)) := by
    intro mo ent dim
    unfold predictE
    split_ifs with hc
    · refine ⟨by simp [hc], fun pr cf h => absurd h (by simp)⟩
    · refine ⟨by simp [hc], fun pr cf h => ?_⟩
      simp only [Except.ok.injEq, Prod.mk.injEq] at h
      exact h.2.symm
  cases m with
  | user => exact ⟨(core .user u i).1, fun pr cf h => (core .user u i).2 pr cf h⟩
  | item => exact ⟨(core .item i u).1, fun pr cf h => (core .item i u).2 pr cf h⟩

/-- C9: `predict` is deterministic — it is a pure function of the
RatingStore state and its arguments, so two calls with identical arguments
on stores holding identical entries return identical results. -/
theorem predict_deterministic (s1 s2 : RatingStore) (u i : ℕ) (m : Mode)
    (k : ℕ) (h : s1.entries = s2.entries) :
    predict s1 u i m k = predict s2 u i m k := by
  obtain ⟨l1⟩ := s1
  obtain ⟨l2⟩ := s2
  have h2 : l1 = l2 := h
  subst h2
  rfl

/-! ### Idempotence of upsert -/

/-- Well-formedness of a store, as established by building it through
`upsert` from empty: entries strictly sorted by (user, item) key, and all
entries valid. -/
def StoreWF (s : RatingStore) : Prop :=
  s.entries.Pairwise keyLT ∧
  ∀ e ∈ s.entries, 1 ≤ e.value ∧ e.value ≤ 5 ∧ 1 ≤ e.user ∧ 1 ≤ e.item

theorem keyLT_irrefl (a : Rating) : ¬keyLT a a := by
  unfold keyLT
  simp

theorem insertEntry_of_mem {r : Rating} :
    ∀ {l : List Rating}, l.Pairwise keyLT → r ∈ l → insertEntry r l = l := by
  intro l
  induction l with
  | nil =>
    intro _ h
    exact absurd h (List.not_mem_nil r)
  | cons e es ih =>
    intro hp hm
    rw [insertEntry]
    split_ifs with h1 h2
    · have hr : r ∈ es := by
        rcases List.mem_cons.mp hm with h3 | h3
        · exact absurd (h3 ▸ h1) (keyLT_irrefl e)
        · exact h3
      rw [ih (List.Pairwise.of_cons hp) hr]
    · have h3 : r = e := by
        rcases List.mem_cons.mp hm with h3 | h3
        · exact h3
        · exact absurd ((List.pairwise_cons.mp hp).1 r h3) h1
      rw [h3]
    · exfalso
      rcases List.mem_cons.mp hm with h3 | h3
      · exact h2 ⟨by rw [h3], by rw [h3]⟩
      · exact h1 ((List.pairwise_cons.mp hp).1 r h3)

theorem get_mem {s : RatingStore} {u i : ℕ} {v : ℚ}
    (h : s.get u i = some v) : (⟨u, i, v⟩ : Rating) ∈ s.entries := by
  unfold RatingStore.get at h
  obtain ⟨e, hfind, hval⟩ := Option.map_eq_some'.mp h
  have hmem := List.mem_of_find?_eq_some hfind
  have hpred := List.find?_some hfind
  obtain ⟨eu, ei, ev⟩ := e
  simp only [Bool.and_eq_true, beq_iff_eq] at hpred
  obtain ⟨h1, h2⟩ := hpred
  have h3 : ev = v := hval
  subst h1
  subst h2
  subst h3
  exact hmem

/-- C10: re-upserting a rating value already present for the same
(user, item) pair returns the store unchanged, hence every subsequent
`predict` call yields the same result as before the upsert. -/
theorem upsert_idempotent (s : RatingStore) (u i : ℕ) (v : ℚ)
    (hwf : StoreWF s) (hget : s.get u i = some v) :
    s.upsert ⟨u, i, v⟩ = .ok s ∧
    ∀ s2, s.upsert ⟨u, i, v⟩ = .ok s2 →
      ∀ u2 i2 m k, predict s2 u2 i2 m k = predict s u2 i2 m k := by
  have hmem := get_mem hget
  obtain ⟨hv1, hv2, hu, hi⟩ := hwf.2 _ hmem
  have hok : s.upsert ⟨u, i, v⟩ = .ok s := by
    have hguard : ¬((v : ℚ) < 1 ∨ (5 : ℚ) < v ∨ u = 0 ∨ i = 0) := by
      push_neg
      exact ⟨hv1, hv2, Nat.pos_iff_ne_zero.mp hu, Nat.pos_iff_ne_zero.mp hi⟩
    simp only [RatingStore.upsert]
    rw [if_neg hguard, insertEntry_of_mem hwf.1 hmem]
  refine ⟨hok, fun s2 h2 u2 i2 m k => ?_⟩
  rw [hok] at h2
  obtain rfl : s = s2 := Except.ok.inj h2
  rfl

/-! ### Concrete stores and evaluations used by the witnesses -/

/-- The concrete store of the spec's test scenario:
ratings {(1,10,5), (2,10,5), (1,20,1), (2,20,1), (3,10,5)}. -/
def scenarioStore : RatingStore :=
  ⟨[⟨1, 10, 5⟩, ⟨1, 20, 1⟩, ⟨2, 10, 5⟩, ⟨2, 20, 1⟩, ⟨3, 10, 5⟩]⟩

/-- A store whose user 3 has one unrated, predictable item (item 20). -/
def richStore : RatingStore :=
  ⟨[⟨1, 10, 5⟩, ⟨1, 20, 1⟩, ⟨2, 10, 5⟩, ⟨2, 20, 1⟩, ⟨3, 10, 5⟩, ⟨3, 30, 1⟩]⟩

/-- Two single-rating users with no co-rated item. -/
def disjointStore : RatingStore := ⟨[⟨1, 10, 5⟩, ⟨2, 20, 4⟩]⟩

theorem scenario_userIds : scenarioStore.userIds = [1, 2, 3] := by
  simp [RatingStore.userIds, scenarioStore, List.dedup_cons_of_mem,
    List.dedup_cons_of_not_mem]

theorem scenario_itemIds : scenarioStore.itemIds = [20, 10] := by
  simp [RatingStore.itemIds, scenarioStore, List.dedup_cons_of_mem,
    List.dedup_cons_of_not_mem]

theorem scenario_mean1 : scenarioStore.mean0 .user 1 = 3 := by
  simp [RatingStore.mean0, RatingStore.ratingsOf, RatingStore.ratingsByUser,
    scenarioStore, List.filterMap]
  norm_num

theorem scenario_mean2 : scenarioStore.mean0 .user 2 = 3 := by
  simp [RatingStore.mean0, RatingStore.ratingsOf, RatingStore.ratingsByUser,
    scenarioStore, List.filterMap]
  norm_num

theorem scenario_mean3 : scenarioStore.mean0 .user 3 = 5 := by
  simp [RatingStore.mean0, RatingStore.ratingsOf, RatingStore.ratingsByUser,
    scenarioStore, List.filterMap]

theorem scenario_coRated12 : coRated scenarioStore .user 1 2 = [20, 10] := by
  unfold coRated RatingStore.dims
  rw [scenario_itemIds]
  simp [RatingStore.vec, RatingStore.get, scenarioStore, List.find?,
    List.filter_cons]

theorem scenario_sim12 : similarity scenarioStore 1 2 .user = 1 := by
  unfold similarity coDot coNormSqA coNormSqB
  rw [scenario_coRated12]
  simp only [RatingStore.dev, scenario_mean1, scenario_mean2]
  simp [RatingStore.vec, RatingStore.get, scenarioStore, List.find?]
  norm_num

theorem scenario_coRated13 : coRated scenarioStore .user 1 3 = [10] := by
  unfold coRated RatingStore.dims
  rw [scenario_itemIds]
  simp [RatingStore.vec, RatingStore.get, scenarioStore, List.find?,
    List.filter_cons]

theorem scenario_sim13 : similarity scenarioStore 1 3 .user = 0 := by
  apply similarity_eq_zero
  right; right
  unfold coNormSqB
  rw [scenario_coRated13]
  simp only [RatingStore.dev, scenario_mean3]
  simp [RatingStore.vec, RatingStore.get, scenarioStore, List.find?]

theorem scenario_sim31 : similarity scenarioStore 3 1 .user = 0 := by
  rw [similarity_symm]
  exact scenario_sim13

theorem scenario_coRated23 : coRated scenarioStore .user 2 3 = [10] := by
  unfold coRated RatingStore.dims
  rw [scenario_itemIds]
  simp [RatingStore.vec, RatingStore.get, scenarioStore, List.find?,
    List.filter_cons]

theorem scenario_sim23 : similarity scenarioStore 2 3 .user = 0 := by
  apply similarity_eq_zero
  right; right
  unfold coNormSqB
  rw [scenario_coRated23]
  simp only [RatingStore.dev, scenario_mean3]
  simp [RatingStore.vec, RatingStore.get, scenarioStore, List.find?]

theorem scenario_sim32 : similarity scenarioStore 3 2 .user = 0 := by
  rw [similarity_symm]
  exact scenario_sim23

theorem scenario_vec : scenarioStore.vec .user 2 20 = some 1 := by
  simp [RatingStore.vec, RatingStore.get, scenarioStore, List.find?]

theorem scenario_vec1 : scenarioStore.vec .user 1 20 = some 1 := by
  simp [RatingStore.vec, RatingStore.get, scenarioStore, List.find?]

theorem scenario_vec3 : scenarioStore.vec .user 3 20 = none := by
  simp [RatingStore.vec, RatingStore.get, scenarioStore, List.find?]

theorem scenario_predCandidates :
    predCandidates scenarioStore .user 1 20 = [2] := by
  unfold predCandidates RatingStore.entities
  rw [scenario_userIds]
  simp only [List.filter_cons, List.filter_nil, scenario_sim12, scenario_vec,
    scenario_vec3]
  norm_num

theorem scenario_predict : predict scenarioStore 1 20 .user 2 = .ok (1, 1/2) := by
  show predictE scenarioStore .user 1 20 2 = .ok (1, 1/2)
  unfold predictE
  rw [if_neg (by rw [scenario_predCandidates]; simp)]
  unfold predNeighbors
  rw [scenario_predCandidates]
  simp only [List.insertionSort, List.orderedInsert, List.take]
  simp only [List.map_cons, List.map_nil, List.sum_cons, List.sum_nil,
    scenario_sim12, scenario_vec, scenario_mean1, scenario_mean2]
  norm_num

theorem scenario_noPred : predCandidates scenarioStore .user 3 20 = [] := by
  unfold predCandidates RatingStore.entities
  rw [scenario_userIds]
  simp only [List.filter_cons, List.filter_nil, scenario_sim31, scenario_sim32,
    scenario_vec1, scenario_vec]
  norm_num

theorem scenario_neighbors : neighbors scenarioStore 1 .user 5 = [2] := by
  unfold neighbors nbrCandidates RatingStore.entities
  rw [scenario_userIds]
  simp only [List.filter_cons, List.filter_nil, scenario_sim12, scenario_sim13]
  norm_num

theorem scenario_wf : StoreWF scenarioStore := by
  constructor
  · decide
  · decide

theorem scenario_get : scenarioStore.get 1 10 = some 5 := by decide

theorem rich_userIds : richStore.userIds = [1, 2, 3] := by
  simp [RatingStore.userIds, richStore, List.dedup_cons_of_mem,
    List.dedup_cons_of_not_mem]

theorem rich_itemIds : richStore.itemIds = [20, 10, 30] := by
  simp [RatingStore.itemIds, richStore, List.dedup_cons_of_mem,
    List.dedup_cons_of_not_mem]

theorem rich_mean1 : richStore.mean0 .user 1 = 3 := by
  simp [RatingStore.mean0, RatingStore.ratingsOf, RatingStore.ratingsByUser,
    richStore, List.filterMap]
  norm_num

theorem rich_mean2 : richStore.mean0 .user 2 = 3 := by
  simp [RatingStore.mean0, RatingStore.ratingsOf, RatingStore.ratingsByUser,
    richStore, List.filterMap]
  norm_num

theorem rich_mean3 : richStore.mean0 .user 3 = 3 := by
  simp [RatingStore.mean0, RatingStore.ratingsOf, RatingStore.ratingsByUser,
    richStore, List.filterMap]
  norm_num

theorem rich_coRated31 : coRated richStore .user 3 1 = [10] := by
  unfold coRated RatingStore.dims
  rw [rich_itemIds]
  simp [RatingStore.vec, RatingStore.get, richStore, List.find?,
    List.filter_cons]

theorem rich_coRated32 : coRated richStore .user 3 2 = [10] := by
  unfold coRated RatingStore.dims
  rw [rich_itemIds]
  simp [RatingStore.vec, RatingStore.get, richStore, List.find?,
    List.filter_cons]

theorem rich_sim31 : similarity richStore 3 1 .user = 1 := by
  unfold similarity coDot coNormSqA coNormSqB
  rw [rich_coRated31]
  simp only [RatingStore.dev, rich_mean1, rich_mean3]
  simp [RatingStore.vec, RatingStore.get, richStore, List.find?]
  norm_num

theorem rich_sim32 : similarity richStore 3 2 .user = 1 := by
  unfold similarity coDot coNormSqA coNormSqB
  rw [rich_coRated32]
  simp only [RatingStore.dev, rich_mean2, rich_mean3]
  simp [RatingStore.vec, RatingStore.get, richStore, List.find?]
  norm_num

theorem rich_vec1 : richStore.vec .user 1 20 = some 1 := by
  simp [RatingStore.vec, RatingStore.get, richStore, List.find?]

theorem rich_vec2 : richStore.vec .user 2 20 = some 1 := by
  simp [RatingStore.vec, RatingStore.get, richStore, List.find?]

theorem rich_vec3 : richStore.vec .user 3 20 = none := by
  simp [RatingStore.vec, RatingStore.get, richStore, List.find?]

theorem rich_predCandidates : predCandidates richStore .user 3 20 = [1, 2] := by
  unfold predCandidates RatingStore.entities
  rw [rich_userIds]
  simp only [List.filter_cons, List.filter_nil, rich_sim31, rich_sim32,
    rich_vec1, rich_vec2, rich_vec3]
  norm_num

theorem rich_predict : predict richStore 3 20 .user 2 = .ok (1, 1) := by
  show predictE richStore .user 3 20 2 = .ok (1, 1)
  unfold predictE
  rw [if_neg (by rw [rich_predCandidates]; simp)]
  unfold predNeighbors
  rw [rich_predCandidates]
  simp only [List.insertionSort, List.orderedInsert]
  rw [if_pos (by
    unfold nbrLE byKey
    simp only [rich_sim31, rich_sim32]
    norm_num)]
  simp only [List.take, List.map_cons, List.map_nil, List.sum_cons,
    List.sum_nil, rich_sim31, rich_sim32, rich_vec1, rich_vec2, rich_mean1,
    rich_mean2, rich_mean3]
  norm_num

theorem rich_recommend : recommend richStore 3 .user 2 8 = [⟨20, 1, 1⟩] := by
  unfold recommend
  rw [rich_itemIds]
  have hc : List.filter (fun i => (richStore.get 3 i).isNone) [20, 10, 30] =
      [20] := by decide
  rw [hc]
  simp only [List.filterMap_cons, List.filterMap_nil, rich_predict]
  simp [List.insertionSort, List.orderedInsert]

theorem disjoint_coRated : coRated disjointStore .user 1 2 = [] := by
  unfold coRated RatingStore.dims RatingStore.itemIds
  simp [disjointStore, RatingStore.vec, RatingStore.get, List.find?,
    List.filter_cons, List.dedup_cons_of_mem, List.dedup_cons_of_not_mem]

/-! ### Witnesses -/

/-- Witness for C1 at the concrete inputs "1"/"user-based" and
"2"/"item-based". -/
theorem generateRecommendations_const_witness :
    ("1" : String) ≠ "" ∧ ("2" : String) ≠ "" ∧
    generateRecommendations ("1") ("user-based") =
      generateRecommendations ("2") ("item-based") ∧
    generateRecommendations ("1") ("user-based") = some mockRecommendations :=
  ⟨by decide, by decide,
    (generateRecommendations_const ("1") ("2") ("user-based") ("item-based")
      (by decide) (by decide)).1,
    (generateRecommendations_const ("1") ("2") ("user-based") ("item-based")
      (by decide) (by decide)).2.1⟩

/-- Witness for C2 on the scenario store: the successful prediction
(3,20)-neighborhood of user 1 yields the clamped rating 1 ∈ [1,5]. -/
theorem predict_rating_in_Icc_witness :
    predict scenarioStore 1 20 .user 2 = .ok (1, 1/2) ∧
    1 ≤ (1 : ℚ) ∧ (1 : ℚ) ≤ 5 :=
  ⟨scenario_predict,
    predict_rating_in_Icc scenarioStore 1 20 .user 2 1 (1/2) scenario_predict⟩

/-- Witness for C4: two single-rating users with no co-rated item have
similarity exactly 0. -/
theorem similarity_eq_zero_witness :
    coRated disjointStore .user 1 2 = [] ∧
    similarity disjointStore 1 2 .user = 0 :=
  ⟨disjoint_coRated,
    similarity_eq_zero disjointStore 1 2 .user (Or.inl disjoint_coRated)⟩

/-- Witness for C5: the single recommendation for user 3 on `richStore` is
an unrated item carrying a successful prediction. -/
theorem recommend_spec_witness :
    (⟨20, 1, 1⟩ : Recommendation) ∈ recommend richStore 3 .user 2 8 ∧
    richStore.get 3 20 = none ∧
    predict richStore 3 20 .user 2 = .ok (1, 1) := by
  have hmem : (⟨20, 1, 1⟩ : Recommendation) ∈ recommend richStore 3 .user 2 8 := by
    rw [rich_recommend]
    exact List.mem_singleton.mpr rfl
  have h := (recommend_spec richStore 3 .user 2 8).1 ⟨20, 1, 1⟩ hmem
  exact ⟨hmem, h.1, h.2⟩

/-- Witness for C6: on the scenario store, user 2 is a neighbor of user 1
and indeed has strictly positive similarity to it. -/
theorem neighbors_spec_witness :
    (2 : ℕ) ∈ neighbors scenarioStore 1 .user 5 ∧
    0 < similarity scenarioStore 1 2 .user := by
  have hmem : (2 : ℕ) ∈ neighbors scenarioStore 1 .user 5 := by
    rw [scenario_neighbors]
    exact List.mem_singleton.mpr rfl
  exact ⟨hmem, (neighbors_spec scenarioStore 1 .user 5).2.1 2 hmem⟩

/-- Witness for C7: a rating of value 6 is rejected with `InvalidValue`,
and the store obtained by upserting a valid rating satisfies the value
invariant. -/
theorem upsert_invalid_iff_witness :
    RatingStore.empty.upsert ⟨1, 1, 6⟩ = .error .InvalidValue ∧
    ValidValues ⟨[⟨1, 1, 3⟩]⟩ := by
  constructor
  · exact (upsert_invalid_iff RatingStore.empty ⟨1, 1, 6⟩).1.mpr
      (Or.inr (Or.inl (by norm_num : (5 : ℚ) < 6)))
  · exact (upsert_invalid_iff RatingStore.empty ⟨1, 1, 3⟩).2.1 ⟨[⟨1, 1, 3⟩]⟩
      (fun e he => absurd he (List.not_mem_nil e))
      (by norm_num [RatingStore.upsert, RatingStore.empty, insertEntry])

/-- Witness for C8 on the scenario store: user 3 has no available neighbor
for item 20, so predict fails with `NoPrediction`; and user 1's successful
prediction has confidence Σ|sim| / k = 1/2. -/
theorem predict_error_iff_witness :
    predict scenarioStore 3 20 .user 2 = .error .NoPrediction ∧
    (1 / 2 : ℚ) = ((usedNeighbors scenarioStore 1 20 .user 2).map
      fun n => |neighborSim scenarioStore 1 20 .user n|).sum / (2 : ℚ) := by
  constructor
  · exact (predict_error_iff scenarioStore 3 20 .user 2).1.mpr scenario_noPred
  · exact (predict_error_iff scenarioStore 1 20 .user 2).2 1 (1/2)
      scenario_predict

/-- Witness for C9: two predict calls on the same store state agree. -/
theorem predict_deterministic_witness :
    scenarioStore.entries = scenarioStore.entries ∧
    predict scenarioStore 1 20 .user 2 = predict scenarioStore 1 20 .user 2 :=
  ⟨rfl, predict_deterministic scenarioStore scenarioStore 1 20 .user 2 rfl⟩

/-- Witness for C10: re-upserting the already-present rating (1,10,5)
into the scenario store returns the store unchanged. -/
theorem upsert_idempotent_witness :
    StoreWF scenarioStore ∧ scenarioStore.get 1 10 = some 5 ∧
    scenarioStore.upsert ⟨1, 10, 5⟩ = .ok scenarioStore :=
  ⟨scenario_wf, scenario_get,
    (upsert_idempotent scenarioStore 1 10 5 scenario_wf scenario_get).1⟩
